import Mathlib

/-!
Verification of the elevation ridge-plot pipeline (`elevation_gen_lib.py`)
against its specification.  The numeric core is embedded over `ℚ` (the
source's float arithmetic read as exact real arithmetic), Python's `int()`
truncation and `numpy` clipping/indexing made explicit.  The geographic
extent computation, which uses the cosine, is embedded over `ℝ`.
-/

namespace ElevationGen

/-- Python `int()` applied to a float: truncation toward zero. -/
def pyInt (q : ℚ) : ℤ := if 0 ≤ q then ⌊q⌋ else ⌈q⌉

/-- `np.clip(a, lo, hi)` on scalars: `min hi (max lo a)`. -/
def npClip (a lo hi : ℚ) : ℚ := min hi (max lo a)

/-- `np.clip` on the integer RGB channels. -/
def npClipZ (a lo hi : ℤ) : ℤ := min hi (max lo a)

/-- The `1e-10` guard added to every normalization denominator. -/
def eps : ℚ := 1 / 10 ^ 10

/-- `elevation_to_color(elevation, min_elev, max_elev)` from
`src/elevation_gen_lib.py` lines 15-48, returning the integer RGB triple
(the function's two output formats are both images of this triple).
The input is clamped into `[min_elev, max_elev]`, the normalized position
into `[0, 1]`, the piecewise gradient is evaluated, and each channel is
clamped into `[0, 255]`. -/
def elevation_to_color (elevation min_elev max_elev : ℚ) : ℤ × ℤ × ℤ :=
  let e := npClip elevation min_elev max_elev
  let norm := npClip ((e - min_elev) / (max_elev - min_elev + eps)) 0 1
  let rgb : ℤ × ℤ × ℤ :=
    if norm < 1/100 then
      (0, 0, 139)
    else if norm < 1/10 then
      let t := (norm - 1/100) / (9/100)
      (pyInt (0 + 135 * t), pyInt (0 + 206 * t), pyInt (139 + 111 * t))
    else if norm < 3/10 then
      let t := (norm - 1/10) / (2/10)
      (pyInt (135 * (1-t) + 0 * t), pyInt (206 + 49 * t), pyInt (250 + 5 * t))
    else if norm < 1/2 then
      let t := (norm - 3/10) / (2/10)
      (pyInt 0, pyInt 255, pyInt (255 * (1-t)))
    else if norm < 3/4 then
      let t := (norm - 1/2) / (1/4)
      (pyInt (255 * t), pyInt 255, pyInt 0)
    else
      let t := (norm - 3/4) / (1/4)
      (pyInt 255, pyInt (255 * (1-t)), pyInt 0)
  (npClipZ rgb.1 0 255, npClipZ rgb.2.1 0 255, npClipZ rgb.2.2 0 255)

/-- `np.linspace(start, stop, num)`: `num` evenly spaced samples from
`start` to `stop`, both endpoints included (`num = 1` gives `[start]`). -/
def linspace (start stop : ℚ) (num : ℕ) : List ℚ :=
  if num = 0 then []
  else if num = 1 then [start]
  else (List.range num).map (fun i : ℕ => start + (i:ℚ) * (stop - start) / ((num:ℚ) - 1))

/-- `numpy` indexing of a 1-D array by a (possibly negative) integer index:
a negative index wraps once by the length; anything still out of bounds is
an `IndexError`, modelled as `none`. -/
def npGet {α : Type} (l : List α) (i : ℤ) : Option α :=
  let j : ℤ := if i < 0 then i + l.length else i
  if 0 ≤ j then l[j.toNat]? else none

/-- Sequencing of fallible element lookups: the first failure aborts the
whole extraction, as the first raised `IndexError` aborts the Python loop. -/
def mapOpt {α β : Type} (f : α → Option β) : List α → Option (List β)
  | [] => some []
  | a :: l =>
    match f a, mapOpt f l with
    | some b, some bs => some (b :: bs)
    | _, _ => none

/-- `rows = np.linspace(src.height - 1, 0, num_profiles).astype(int)`
(line 105): the sampled row indices, ordered from the last row to row 0. -/
def rowIndices (H num_profiles : ℕ) : List ℤ :=
  (linspace ((H:ℚ) - 1) 0 num_profiles).map pyInt

/-- `cols = np.linspace(0, src.width - 1, num_points_per_profile).astype(int)`
(line 106): the sampled column indices. -/
def colIndices (W num_points : ℕ) : List ℤ :=
  (linspace 0 ((W:ℚ) - 1) num_points).map pyInt

/-- The raster's width, as `rasterio` reports it for a rectangular grid. -/
def gridWidth (g : List (List ℚ)) : ℕ := (g.headD []).length

/-- The profile-sampling loop (lines 104-111): for each selected row index,
read that row and take the selected columns.  `none` models the raised
`IndexError` when an index is out of bounds. -/
def sampleRowsOpt (g : List (List ℚ)) (num_profiles num_points : ℕ) :
    Option (List (List ℚ)) :=
  mapOpt (fun r =>
    match npGet g r with
    | none => none
    | some row => mapOpt (fun c => npGet row c) (colIndices (gridWidth g) num_points))
    (rowIndices g.length num_profiles)

/-- The error kinds the specification names, plus the exceptions Python
itself raises.  The embedded code only ever produces `indexError` (an
out-of-bounds `numpy` access) or `valueError` (`np.min` of an empty
array); the code contains no `emptyRaster` or `invalidParameter` check. -/
inductive Err : Type where
  | indexError : Err
  | valueError : Err
  | emptyRaster : Err
  | invalidParameter : Err
deriving DecidableEq

/-- Profile sampling as the caller observes it: the extracted profiles, or
the exception that aborted the extraction. -/
def sampleProfilesE (g : List (List ℚ)) (num_profiles num_points : ℕ) :
    Except Err (List (List ℚ)) :=
  match sampleRowsOpt g num_profiles num_points with
  | none => .error .indexError
  | some profiles => .ok profiles

/-- `vertical_offset = 3` (line 128). -/
def vertical_offset : ℚ := 3

/-- `amplitude_scale = 0.5` (line 129). -/
def amplitude_scale : ℚ := 1/2

/-- Lines 113-118: concatenate all profiles, clamp negatives to `0`, and
take the global min and max.  `np.min`/`np.max` of an empty array raise
`ValueError`, modelled as `none`. -/
def globalRange (profiles : List (List ℚ)) : Option (ℚ × ℚ) :=
  match profiles.flatten.map (fun v => max v 0) with
  | [] => none
  | x :: xs => some (xs.foldl min x, xs.foldl max x)

/-- Lines 152-155 applied to one already-clamped sample `c`:
`exaggerated = gmin + (c - gmin) * V`, normalized against the exaggerated
range `[gmin, gmin + (gmax - gmin) * V]` with the `ε` guard, then scaled by
`amplitude_scale * vertical_offset * 10`. -/
def scaleHeight (gmin gmax V c : ℚ) : ℚ :=
  ((gmin + (c - gmin) * V) - gmin) / ((gmin + (gmax - gmin) * V) - gmin + eps) *
    amplitude_scale * vertical_offset * 10

/-- The draw height of a raw sample `v`: line 150 clamps it to `≥ 0` first. -/
def drawHeight (gmin gmax V v : ℚ) : ℚ := scaleHeight gmin gmax V (max v 0)

/-- One profile's draw operations, as the loop of lines 146-170 issues them:
the fill-to-baseline silhouette at `zorder = n - i` and the outline, either
per-segment colored strokes (`use_color_gradient`) or a plain stroke, at
`zorder = n - i + 0.1`. -/
structure ProfileRender : Type where
  idx : ℕ
  y_offset : ℚ
  heights : List ℚ
  colors : Option (List (ℤ × ℤ × ℤ))
  fill_zorder : ℚ
  line_zorder : ℚ
deriving DecidableEq

/-- The rendering loop of lines 146-170: iterate `i` over
`reversed(range(n))`, clamp the profile, compute its draw heights, its
baseline `y_offset = i * vertical_offset`, its fill `zorder = n - i`, and
(when `use_color_gradient`) one color per segment from the clamped sample. -/
def layerOp (profiles : List (List ℚ)) (gmin gmax V : ℚ) (useColor : Bool)
    (i : ℕ) : ProfileRender :=
  let profile := (profiles.getD i []).map (fun v => max v 0)
  { idx := i
    y_offset := (i : ℚ) * vertical_offset
    heights := profile.map (fun c => scaleHeight gmin gmax V c)
    colors := if useColor then
        some (profile.dropLast.map (fun c => elevation_to_color c gmin gmax))
      else none
    fill_zorder := (profiles.length : ℚ) - (i : ℚ)
    line_zorder := (profiles.length : ℚ) - (i : ℚ) + 1/10 }

/-- The full rendering loop: `for i in reversed(range(len(profiles)))`
(line 146), issuing the draw operations of `layerOp` for each index. -/
def layerOps (profiles : List (List ℚ)) (gmin gmax V : ℚ) (useColor : Bool) :
    List ProfileRender :=
  (List.range profiles.length).reverse.map (layerOp profiles gmin gmax V useColor)

/-- The raster-to-scene core of `generate_elevation_map` (lines 104-170),
from the decoded grid to the ordered list of draw operations: sample the
profiles, compute the global clamped range, and run the rendering loop.
The source performs no parameter validation anywhere on this path. -/
def renderScene (grid : List (List ℚ)) (V : ℚ) (useColor : Bool)
    (num_profiles num_points : ℕ) : Except Err (List ProfileRender) :=
  match sampleRowsOpt grid num_profiles num_points with
  | none => .error .indexError
  | some profiles =>
    match globalRange profiles with
    | none => .error .valueError
    | some (gmin, gmax) => .ok (layerOps profiles gmin gmax V useColor)

/-- The rectangular geographic extent: the bounding box of the input
polygon (line 70), in the order `(lon_min, lat_min, lon_max, lat_max)`. -/
structure Extent : Type where
  lon_min : ℝ
  lat_min : ℝ
  lon_max : ℝ
  lat_max : ℝ

/-- `np.radians`: degrees to radians. -/
noncomputable def radians (d : ℝ) : ℝ := d * (Real.pi / 180)

/-- Lines 72-79: `lat_center = (lat_min + lat_max)/2`,
`lon_range_corrected = lon_range * cos(radians(lat_center))`,
`aspect_ratio = lon_range_corrected / lat_range`. -/
noncomputable def aspect_ratio (e : Extent) : ℝ :=
  ((e.lon_max - e.lon_min) * Real.cos (radians ((e.lat_min + e.lat_max) / 2))) /
    (e.lat_max - e.lat_min)

/-- Lines 132-133: `fig_width = 16`, `fig_height = fig_width / aspect_ratio`. -/
noncomputable def figDims (e : Extent) : ℝ × ℝ := (16, 16 / aspect_ratio e)

/-- The ambient state an invocation could in principle consult: a random
seed and a clock.  The source's core consults neither — it calls no random
generator and reads no time — so the embedded pipeline ignores this
argument entirely. -/
structure Ambient : Type where
  rngSeed : ℕ
  wallClock : ℕ

/-- One full invocation of the core on a decoded grid: the figure
dimensions derived from the extent, and the composed scene.  The `Ambient`
argument carries everything invocation-specific that is not an explicit
input. -/
noncomputable def render_invocation (amb : Ambient) (ext : Extent)
    (grid : List (List ℚ)) (V : ℚ) (useColor : Bool) (np npts : ℕ) :
    (ℝ × ℝ) × Except Err (List ProfileRender) :=
  (figDims ext, renderScene grid V useColor np npts)

/-- The scenario grid of claim C9: 100×100, constant elevation 500 m. -/
def constGrid100 : List (List ℚ) := List.replicate 100 (List.replicate 100 500)

theorem npClipZ_nonneg (a : ℤ) : 0 ≤ npClipZ a 0 255 := by
  unfold npClipZ
  exact le_min (by norm_num) (le_max_left 0 a)

theorem npClipZ_le (a : ℤ) : npClipZ a 0 255 ≤ 255 := min_le_left 255 _

theorem eps_pos : (0:ℚ) < eps := by norm_num [eps]

/-- At `value = min` the normalized position is exactly `0`. -/
theorem color_at_min (mn mx : ℚ) (h : mn ≤ mx) :
    elevation_to_color mn mn mx = (0, 0, 139) := by
  have he : npClip mn mn mx = mn := by
    unfold npClip
    rw [max_self, min_eq_right h]
  have hnorm : npClip ((npClip mn mn mx - mn) / (mx - mn + eps)) 0 1 = 0 := by
    rw [he, sub_self, zero_div]
    unfold npClip
    rw [max_self, min_eq_right (by norm_num : (0:ℚ) ≤ 1)]
  simp only [elevation_to_color, hnorm]
  norm_num [npClipZ]

/-- At `value = max` with `max - min > 1019·ε` the final gradient branch is
taken and the green channel truncates to `0`, giving pure red. -/
theorem color_at_max (mn mx : ℚ) (h : mn ≤ mx) (hR : 1019 * eps < mx - mn) :
    elevation_to_color mx mn mx = (255, 0, 0) := by
  set R := mx - mn with hRdef
  have hRpos : 0 < R := lt_trans (by norm_num [eps]) hR
  have hden : 0 < R + eps := by linarith [eps_pos]
  have he : npClip mx mn mx = mx := by
    unfold npClip
    rw [max_eq_right h, min_self]
  have hnorm : npClip ((npClip mx mn mx - mn) / (mx - mn + eps)) 0 1 = R / (R + eps) := by
    rw [he, ← hRdef]
    unfold npClip
    rw [max_eq_right (div_nonneg hRpos.le hden.le),
      min_eq_right ((div_le_one hden).mpr (by linarith [eps_pos]))]
  have h34 : 3/4 ≤ R / (R + eps) := by
    rw [le_div_iff hden]
    linarith [eps_pos]
  have hlt1 : R / (R + eps) < 1 := (div_lt_one hden).mpr (by linarith [eps_pos])
  simp only [elevation_to_color, hnorm]
  rw [if_neg (by linarith), if_neg (by linarith), if_neg (by linarith),
    if_neg (by linarith), if_neg (by linarith)]
  have hg : 255 * (1 - (R / (R + eps) - 3/4) / (1/4)) = 1020 * eps / (R + eps) := by
    field_simp
    ring
  have hgval : pyInt (255 * (1 - (R / (R + eps) - 3/4) / (1/4))) = 0 := by
    have hnn : (0:ℚ) ≤ 1020 * eps / (R + eps) :=
      div_nonneg (by norm_num [eps]) hden.le
    rw [hg]
    unfold pyInt
    rw [if_pos hnn, Int.floor_eq_zero_iff]
    refine ⟨hnn, ?_⟩
    rw [div_lt_one hden]
    linarith
  simp only [hgval]
  norm_num [pyInt, npClipZ]

/-- Claim C1 (amended): for every `min ≤ max`, the color at `value = min` is
dark blue `(0,0,139)`; the color at `value = max` is pure red `(255,0,0)`
provided `max - min > 1019 · 1e-10`.  For smaller ranges (including the
degenerate `max = min`) the `ε` in the normalization denominator keeps the
normalized position short of `1` and the green channel does not truncate
to `0`. -/
theorem claim_c1_color_endpoints (mn mx : ℚ) (h : mn ≤ mx) :
    elevation_to_color mn mn mx = (0, 0, 139) ∧
    (1019 * eps < mx - mn → elevation_to_color mx mn mx = (255, 0, 0)) :=
  ⟨color_at_min mn mx h, color_at_max mn mx h⟩

/-- Counterexample to claim C1 as stated: with `min = 0 ≤ max = 1e-8` the
color at `value = max` is `(255, 10, 0)`, not pure red: the `ε` guard keeps
the normalized position at `10^2/(10^2+1) < 1`, so the green channel
truncates to `10`. -/
theorem claim_c1_counterexample :
    (0:ℚ) ≤ 1/10^8 ∧ elevation_to_color (1/10^8) 0 (1/10^8) ≠ (255, 0, 0) := by
  constructor
  · norm_num
  · have : elevation_to_color (1/10^8) 0 (1/10^8) = (255, 10, 0) := by
      norm_num [elevation_to_color, npClip, npClipZ, eps, pyInt]
    rw [this]
    intro hcontra
    exact absurd (congrArg (fun p => p.2.1) hcontra) (by norm_num)

/-- Witness for claim C1's amended theorem at `min = 0`, `max = 1000`. -/
theorem claim_c1_witness :
    (0:ℚ) ≤ 1000 ∧ 1019 * eps < (1000:ℚ) - 0 ∧
    elevation_to_color 0 0 1000 = (0, 0, 139) ∧
    elevation_to_color 1000 0 1000 = (255, 0, 0) :=
  ⟨by norm_num, by norm_num [eps],
    (claim_c1_color_endpoints 0 1000 (by norm_num)).1,
    (claim_c1_color_endpoints 0 1000 (by norm_num)).2 (by norm_num [eps])⟩

theorem mapOpt_nil {α β : Type} (f : α → Option β) : mapOpt f [] = some [] := rfl

theorem mapOpt_cons {α β : Type} (f : α → Option β) (a : α) (l : List α) :
    mapOpt f (a :: l) =
      match f a, mapOpt f l with
      | some b, some bs => some (b :: bs)
      | _, _ => none := rfl

theorem mapOpt_map {α β γ : Type} (f : β → Option γ) (g : α → β) (l : List α) :
    mapOpt f (l.map g) = mapOpt (fun a => f (g a)) l := by
  induction l with
  | nil => rfl
  | cons a t ih => simp only [List.map_cons, mapOpt_cons, ih]

theorem mapOpt_congr {α β : Type} {f g : α → Option β} {l : List α}
    (h : ∀ a ∈ l, f a = g a) : mapOpt f l = mapOpt g l := by
  induction l with
  | nil => rfl
  | cons a t ih =>
    rw [mapOpt_cons, mapOpt_cons, h a (List.mem_cons_self a t),
      ih (fun x hx => h x (List.mem_cons_of_mem a hx))]

theorem mapOpt_of_some {α β : Type} (h : α → β) (l : List α) :
    mapOpt (fun a => some (h a)) l = some (l.map h) := by
  induction l with
  | nil => rfl
  | cons a t ih => simp only [mapOpt_cons, ih, List.map_cons]

theorem npGet_natCast {α : Type} (l : List α) (i : ℕ) : npGet l (i : ℤ) = l[i]? := by
  unfold npGet
  rw [if_neg (show ¬((i:ℤ) < 0) by omega), if_pos (show (0:ℤ) ≤ (i:ℤ) by omega)]
  simp

theorem npGet_neg_nil {α : Type} (i : ℤ) (h : i < 0) : npGet ([] : List α) i = none := by
  unfold npGet
  simp only [List.length_nil, Nat.cast_zero, add_zero, if_pos h]
  rw [if_neg (by omega)]

theorem mapOpt_getElem {α : Type} (l : List α) :
    mapOpt (fun c : ℕ => l[c]?) (List.range l.length) = some l := by
  induction l with
  | nil => rfl
  | cons a t ih =>
    rw [List.length_cons, List.range_succ_eq_map, mapOpt_cons, mapOpt_map]
    simp only [List.getElem?_cons_zero, List.getElem?_cons_succ, Nat.succ_eq_add_one]
    rw [ih]

theorem pyInt_intCast (k : ℤ) : pyInt (k : ℚ) = k := by
  unfold pyInt
  rcases le_or_lt 0 k with h | h
  · rw [if_pos (by exact_mod_cast h), Int.floor_intCast]
  · rw [if_neg (not_le.mpr (by exact_mod_cast h)), Int.ceil_intCast]

theorem linspace_head (a b : ℚ) (num : ℕ) (h : 1 ≤ num) :
    (linspace a b num).head? = some a := by
  unfold linspace
  rcases eq_or_lt_of_le h with h1 | h2
  · rw [if_neg (by omega), if_pos (by omega)]
    rfl
  · obtain ⟨m, rfl⟩ : ∃ m, num = m + 2 := ⟨num - 2, by omega⟩
    rw [if_neg (by omega), if_neg (by omega), List.range_succ_eq_map, List.map_cons]
    simp only [List.head?_cons, Option.some.injEq]
    norm_num

theorem mapOpt_none_of_head {α β : Type} {f : α → Option β} {l : List α} {x : α}
    (hh : l.head? = some x) (hf : f x = none) : mapOpt f l = none := by
  cases l with
  | nil => simp at hh
  | cons y t =>
    obtain rfl : y = x := by simpa using hh
    rw [mapOpt_cons, hf]

/-- With `num_profiles = H ≥ 1` the sampled row indices are exactly
`H-1, H-2, …, 0`: `linspace(H-1, 0, H)` has unit step. -/
theorem rowIndices_self (H : ℕ) (h : 1 ≤ H) :
    rowIndices H H = (List.range H).map (fun i : ℕ => ((H - 1 - i : ℕ) : ℤ)) := by
  unfold rowIndices linspace
  rcases eq_or_lt_of_le h with h1 | h2
  · rw [← h1]
    norm_num [pyInt, List.range_succ_eq_map, List.range_zero]
  · rw [if_neg (by omega), if_neg (by omega), List.map_map]
    apply List.map_congr_left
    intro i hi
    have hiH : i < H := List.mem_range.mp hi
    have hH1 : ((H:ℚ) - 1) ≠ 0 := by
      have h2Q : (2:ℚ) ≤ (H:ℚ) := by exact_mod_cast h2
      linarith
    simp only [Function.comp_apply]
    have e1 : (H:ℚ) - 1 + (i:ℚ) * (0 - ((H:ℚ) - 1)) / ((H:ℚ) - 1) = (H:ℚ) - 1 - i := by
      field_simp
      ring
    have e2 : (H:ℚ) - 1 - i = (((H - 1 - i : ℕ) : ℤ) : ℚ) := by
      have hi1 : i ≤ H - 1 := by omega
      push_cast [Nat.cast_sub hi1, Nat.cast_sub h]
      ring
    rw [e1, e2, pyInt_intCast]

/-- With `num_points = W ≥ 1` the sampled column indices are exactly
`0, 1, …, W-1`. -/
theorem colIndices_self (W : ℕ) (h : 1 ≤ W) :
    colIndices W W = (List.range W).map (fun i : ℕ => (i : ℤ)) := by
  unfold colIndices linspace
  rcases eq_or_lt_of_le h with h1 | h2
  · rw [← h1]
    norm_num [pyInt, List.range_succ_eq_map, List.range_zero]
  · rw [if_neg (by omega), if_neg (by omega), List.map_map]
    apply List.map_congr_left
    intro i hi
    have hW1 : ((W:ℚ) - 1) ≠ 0 := by
      have h2Q : (2:ℚ) ≤ (W:ℚ) := by exact_mod_cast h2
      linarith
    simp only [Function.comp_apply]
    have e1 : (0:ℚ) + (i:ℚ) * ((W:ℚ) - 1 - 0) / ((W:ℚ) - 1) = (((i:ℤ)):ℚ) := by
      push_cast
      field_simp
    rw [e1, pyInt_intCast]

/-- Identity resampling: reading a row of length `W` at columns
`0, 1, …, W-1` returns the row unchanged. -/
theorem mapOpt_npGet_range {α : Type} (row : List α) :
    mapOpt (fun c : ℤ => npGet row c) ((List.range row.length).map (fun i : ℕ => (i : ℤ))) =
      some row := by
  rw [mapOpt_map]
  rw [mapOpt_congr (fun c _ => npGet_natCast row c)]
  exact mapOpt_getElem row

/-- The full-resolution sampler extracts every grid row exactly once, in
reverse order: with `num_profiles = H` and `num_points = W` the resulting
profile list is the reversed row list of the grid. -/
theorem sampleRowsOpt_self (g : List (List ℚ)) (W : ℕ) (hH : 1 ≤ g.length)
    (hW : 1 ≤ W) (hrect : ∀ row ∈ g, row.length = W) :
    sampleRowsOpt g g.length W = some g.reverse := by
  unfold sampleRowsOpt
  have hgw : gridWidth g = W := by
    cases g with
    | nil => simp at hH
    | cons r t => exact hrect r (List.mem_cons_self r t)
  simp only [hgw, rowIndices_self g.length hH, colIndices_self W hW]
  rw [mapOpt_map]
  have key : ∀ i ∈ List.range g.length,
      (fun i : ℕ =>
        (match npGet g (((g.length - 1 - i : ℕ) : ℤ)) with
          | none => none
          | some row =>
            mapOpt (fun c => npGet row c) ((List.range W).map (fun j : ℕ => (j : ℤ))))) i =
      (fun i : ℕ => some (g.getD (g.length - 1 - i) [])) i := by
    intro i hi
    have hiH : i < g.length := List.mem_range.mp hi
    have hk : g.length - 1 - i < g.length := by omega
    simp only
    rw [npGet_natCast, List.getElem?_eq_getElem hk, List.getD_eq_getElem g [] hk]
    have hrow : (g[g.length - 1 - i]).length = W :=
      hrect _ (List.getElem_mem hk)
    show mapOpt (fun c => npGet (g[g.length - 1 - i]) c)
        ((List.range W).map (fun j : ℕ => (j : ℤ))) = some (g[g.length - 1 - i])
    rw [← hrow]
    exact mapOpt_npGet_range _
  rw [mapOpt_congr key, mapOpt_of_some]
  congr 1
  apply List.ext_getElem
  · simp
  · intro n h1 h2
    have hn : n < g.length := by simpa using h2
    simp only [List.getElem_map, List.getElem_range, List.getElem_reverse]
    rw [List.getD_eq_getElem g [] (by omega)]

/-- Claim C2: for any sample whose clamped value lies in the global range
`[gmin, gmax]` and any nonnegative exaggeration, the draw height produced by
clamping, exaggerating, `ε`-guarded normalizing and scaling lies in
`[0, amplitude_scale * vertical_offset * 10]` inclusive, i.e. in `[0, 15]`
with the fixed constants `amplitude_scale = 0.5`, `vertical_offset = 3`. -/
theorem claim_c2_draw_height_bounds (gmin gmax V v : ℚ) (hV : 0 ≤ V)
    (h1 : gmin ≤ max v 0) (h2 : max v 0 ≤ gmax) :
    0 ≤ drawHeight gmin gmax V v ∧
    drawHeight gmin gmax V v ≤ amplitude_scale * vertical_offset * 10 := by
  unfold drawHeight scaleHeight amplitude_scale vertical_offset
  set c := max v 0 with hc
  have hxV : 0 ≤ (gmax - gmin) * V := mul_nonneg (by linarith) hV
  have hden : 0 < (gmin + (gmax - gmin) * V) - gmin + eps := by
    have := eps_pos
    linarith
  have hnum : 0 ≤ (gmin + (c - gmin) * V) - gmin := by
    have : 0 ≤ (c - gmin) * V := mul_nonneg (by linarith) hV
    linarith
  have hub : (gmin + (c - gmin) * V) - gmin ≤ (gmin + (gmax - gmin) * V) - gmin := by
    have : (c - gmin) * V ≤ (gmax - gmin) * V :=
      mul_le_mul_of_nonneg_right (by linarith) hV
    linarith
  have hnorm0 : 0 ≤ ((gmin + (c - gmin) * V) - gmin) /
      ((gmin + (gmax - gmin) * V) - gmin + eps) := div_nonneg hnum hden.le
  have hnorm1 : ((gmin + (c - gmin) * V) - gmin) /
      ((gmin + (gmax - gmin) * V) - gmin + eps) ≤ 1 := by
    rw [div_le_one hden]
    have := eps_pos
    linarith
  constructor
  · have h12 : (0:ℚ) ≤ 1/2 := by norm_num
    exact mul_nonneg (mul_nonneg (mul_nonneg hnorm0 h12) (by norm_num)) (by norm_num)
  · nlinarith [hnorm0, hnorm1]

/-- Witness for claim C2 at `gmin = 0`, `gmax = 1`, `V = 1`, `v = 0`. -/
theorem claim_c2_witness :
    (0:ℚ) ≤ 1 ∧ (0:ℚ) ≤ max (0:ℚ) 0 ∧ max (0:ℚ) 0 ≤ 1 ∧
    (0 ≤ drawHeight 0 1 1 0 ∧
      drawHeight 0 1 1 0 ≤ amplitude_scale * vertical_offset * 10) :=
  ⟨by norm_num, by simp, by simp,
    claim_c2_draw_height_bounds 0 1 1 0 (by norm_num) (by simp) (by simp)⟩

/-- Claim C3: the rendering loop iterates the profiles in reverse of
extraction order, so the profile at index `0` of the profile list is drawn
last (and carries the highest fill draw priority `zorder = n`), and the
profile at index `i` gets the vertical baseline
`y_offset = i * vertical_offset`. -/
theorem claim_c3_layer_order (profiles : List (List ℚ)) (gmin gmax V : ℚ)
    (uc : Bool) (h : 1 ≤ profiles.length) :
    (∀ op ∈ layerOps profiles gmin gmax V uc,
        op.y_offset = (op.idx : ℚ) * vertical_offset ∧
        op.fill_zorder = (profiles.length : ℚ) - (op.idx : ℚ)) ∧
    ∃ front, (layerOps profiles gmin gmax V uc).getLast? = some front ∧
      front.idx = 0 ∧
      ∀ op ∈ layerOps profiles gmin gmax V uc,
        op.fill_zorder ≤ front.fill_zorder := by
  obtain ⟨m, hm⟩ : ∃ m, profiles.length = m + 1 := ⟨profiles.length - 1, by omega⟩
  unfold layerOps
  constructor
  · intro op hop
    obtain ⟨i, hi, rfl⟩ := List.mem_map.mp hop
    exact ⟨rfl, rfl⟩
  · refine ⟨layerOp profiles gmin gmax V uc 0, ?_, rfl, ?_⟩
    · rw [List.getLast?_map, List.getLast?_reverse, hm, List.range_succ_eq_map,
        List.head?_cons]
      rfl
    · intro op hop
      obtain ⟨i, hi, rfl⟩ := List.mem_map.mp hop
      show (profiles.length : ℚ) - (i : ℚ) ≤ (profiles.length : ℚ) - ((0:ℕ) : ℚ)
      have h0i : (0:ℚ) ≤ (i : ℚ) := Nat.cast_nonneg i
      push_cast
      linarith

/-- Witness for claim C3 on a two-profile list. -/
theorem claim_c3_witness :
    (1 ≤ ([[(0:ℚ)], [0]] : List (List ℚ)).length) ∧
    ((∀ op ∈ layerOps [[(0:ℚ)], [0]] 0 0 1 false,
        op.y_offset = (op.idx : ℚ) * vertical_offset ∧
        op.fill_zorder = (([[(0:ℚ)], [0]] : List (List ℚ)).length : ℚ) - (op.idx : ℚ)) ∧
     ∃ front, (layerOps [[(0:ℚ)], [0]] 0 0 1 false).getLast? = some front ∧
       front.idx = 0 ∧
       ∀ op ∈ layerOps [[(0:ℚ)], [0]] 0 0 1 false,
         op.fill_zorder ≤ front.fill_zorder) :=
  ⟨by norm_num, claim_c3_layer_order [[(0:ℚ)], [0]] 0 0 1 false (by norm_num)⟩

/-- Claim C4 (amended): the pipeline performs no parameter validation at
all; a `vertical_exaggeration < 1.0` is accepted, the exaggeration is
applied as given, and no `InvalidParameterError` is ever produced. -/
theorem claim_c4_no_validation (grid : List (List ℚ)) (V : ℚ) (uc : Bool)
    (np npts : ℕ) (hV : V < 1) :
    renderScene grid V uc np npts ≠ Except.error Err.invalidParameter := by
  unfold renderScene
  cases hs : sampleRowsOpt grid np npts with
  | none => simp
  | some profiles =>
    cases hg : globalRange profiles with
    | none => simp [hg]
    | some p =>
      obtain ⟨gmin, gmax⟩ := p
      simp [hg]

/-- Counterexample to claim C4 as stated: `vertical_exaggeration = 0.5 < 1`
on a 1×1 grid is not rejected — the pipeline runs to completion and
produces a rendered scene. -/
theorem claim_c4_counterexample :
    (1/2 : ℚ) < 1 ∧
    renderScene [[0]] (1/2) true 1 1 =
      Except.ok [{ idx := 0, y_offset := 0, heights := [0], colors := some [],
                   fill_zorder := 1, line_zorder := 1 + 1/10 }] := by
  constructor
  · norm_num
  · norm_num [renderScene, sampleRowsOpt, rowIndices, colIndices, linspace,
      gridWidth, npGet, globalRange, layerOps, layerOp, scaleHeight, eps, pyInt,
      vertical_offset, amplitude_scale, mapOpt_cons, mapOpt_nil,
      List.range_succ_eq_map, List.range_zero]

/-- Witness for claim C4's amended theorem at `V = 0.5` on a 1×1 grid. -/
theorem claim_c4_witness :
    (1/2 : ℚ) < 1 ∧
    renderScene [[0]] (1/2) true 1 1 ≠ Except.error Err.invalidParameter :=
  ⟨by norm_num, claim_c4_no_validation [[0]] (1/2) true 1 1 (by norm_num)⟩

/-- Claim C5 (amended): sampling a grid whose height or width is `0` (with
at least one profile and one point requested) fails, but with an
out-of-bounds `IndexError` raised by the `numpy` row/column indexing — the
code contains no `EmptyRasterError` check. -/
theorem claim_c5_zero_size_grid (g : List (List ℚ)) (np npts : ℕ)
    (hnp : 1 ≤ np) (hnpts : 1 ≤ npts)
    (hrect : ∀ row ∈ g, row.length = gridWidth g)
    (h0 : g.length = 0 ∨ gridWidth g = 0) :
    sampleProfilesE g np npts = Except.error Err.indexError := by
  unfold sampleProfilesE
  suffices hnone : sampleRowsOpt g np npts = none by rw [hnone]
  unfold sampleRowsOpt
  rcases Nat.eq_zero_or_pos g.length with hlen | hlen
  · obtain rfl : g = [] := List.length_eq_zero.mp hlen
    apply mapOpt_none_of_head (x := (-1 : ℤ))
    · unfold rowIndices
      rw [List.head?_map, linspace_head _ _ np hnp,
        show (((([] : List (List ℚ)).length : ℚ)) - 1) = (((-1 : ℤ)) : ℚ) by norm_num]
      show some (pyInt (((-1 : ℤ)) : ℚ)) = some (-1)
      rw [pyInt_intCast]
    · rw [npGet_neg_nil _ (by norm_num)]
  · have hw : gridWidth g = 0 := by
      rcases h0 with h0 | h0
      · omega
      · exact h0
    apply mapOpt_none_of_head (x := ((g.length : ℤ) - 1))
    · unfold rowIndices
      rw [List.head?_map, linspace_head _ _ np hnp,
        show ((g.length : ℚ)) - 1 = (((g.length : ℤ) - 1 : ℤ) : ℚ) by push_cast; ring]
      show some (pyInt ((((g.length : ℤ) - 1 : ℤ)) : ℚ)) = some ((g.length : ℤ) - 1)
      rw [pyInt_intCast]
    · have hk : g.length - 1 < g.length := by omega
      have hcast : ((g.length : ℤ) - 1) = ((g.length - 1 : ℕ) : ℤ) := by
        push_cast [Nat.cast_sub hlen]
        ring
      rw [hcast, npGet_natCast, List.getElem?_eq_getElem hk]
      have hrow : (g[g.length - 1]).length = 0 := hw ▸ hrect _ (List.getElem_mem hk)
      obtain hempty : g[g.length - 1] = [] := List.length_eq_zero.mp hrow
      show mapOpt (fun c => npGet (g[g.length - 1]) c) (colIndices (gridWidth g) npts) = none
      apply mapOpt_none_of_head (x := (0 : ℤ))
      · unfold colIndices
        rw [List.head?_map, linspace_head 0 _ npts hnpts]
        show some (pyInt 0) = some 0
        norm_num [pyInt]
      · rw [hempty]
        rfl

/-- Counterexample to claim C5 as stated: on the empty grid, sampling fails
with an `IndexError`, not with the specification's `EmptyRasterError`. -/
theorem claim_c5_counterexample :
    sampleProfilesE ([] : List (List ℚ)) 1 1 = Except.error Err.indexError ∧
    sampleProfilesE ([] : List (List ℚ)) 1 1 ≠ Except.error Err.emptyRaster := by
  have hval : sampleRowsOpt ([] : List (List ℚ)) 1 1 = none := by
    unfold sampleRowsOpt rowIndices colIndices linspace gridWidth
    norm_num [mapOpt_cons, mapOpt_nil, pyInt, npGet]
  constructor
  · unfold sampleProfilesE
    rw [hval]
  · unfold sampleProfilesE
    rw [hval]
    simp

/-- Witness for claim C5's amended theorem on the empty grid. -/
theorem claim_c5_witness :
    (1 ≤ 1) ∧ (([] : List (List ℚ)).length = 0 ∨ gridWidth [] = 0) ∧
    sampleProfilesE ([] : List (List ℚ)) 1 1 = Except.error Err.indexError :=
  ⟨le_refl 1, Or.inl rfl,
    claim_c5_zero_size_grid [] 1 1 (le_refl 1) (le_refl 1)
      (fun row hr => absurd hr (List.not_mem_nil row)) (Or.inl rfl)⟩

/-- Claim C6: with `num_profiles` equal to the grid height `H ≥ 1` and
`num_points_per_profile` equal to the grid width `W ≥ 1`, the sampler
returns exactly the grid's rows in reverse order — every grid row is
represented exactly once, and each row index is selected exactly once. -/
theorem claim_c6_every_row_once (g : List (List ℚ)) (W : ℕ) (hH : 1 ≤ g.length)
    (hW : 1 ≤ W) (hrect : ∀ row ∈ g, row.length = W) :
    sampleRowsOpt g g.length W = some g.reverse ∧
    ∀ r : ℕ, r < g.length → (rowIndices g.length g.length).count ((r : ℕ) : ℤ) = 1 := by
  refine ⟨sampleRowsOpt_self g W hH hW hrect, ?_⟩
  intro r hr
  rw [rowIndices_self g.length hH]
  apply List.count_eq_one_of_mem
  · apply List.Nodup.map_on _ (List.nodup_range g.length)
    intro i hi j hj hij
    have hi1 : i < g.length := List.mem_range.mp hi
    have hj1 : j < g.length := List.mem_range.mp hj
    have : g.length - 1 - i = g.length - 1 - j := by exact_mod_cast hij
    omega
  · apply List.mem_map.mpr
    refine ⟨g.length - 1 - r, List.mem_range.mpr (by omega), ?_⟩
    rw [show g.length - 1 - (g.length - 1 - r) = r from by omega]

/-- Witness for claim C6 on a 2×1 grid. -/
theorem claim_c6_witness :
    (1 ≤ ([[(1:ℚ)], [2]] : List (List ℚ)).length) ∧
    sampleRowsOpt [[(1:ℚ)], [2]] 2 1 = some [[2], [1]] ∧
    (rowIndices 2 2).count ((0 : ℕ) : ℤ) = 1 := by
  have h := claim_c6_every_row_once [[(1:ℚ)], [2]] 1 (by norm_num) (le_refl 1)
    (by intro row hr; fin_cases hr <;> rfl)
  exact ⟨by norm_num, h.1, h.2 0 (by norm_num)⟩

/-- Claim C7 (amended): for every extent with `lon_min < lon_max`,
`lat_min < lat_max` and latitudes within `[-90, 90]`, the derived
`aspect_ratio` is strictly positive (the mean latitude then lies strictly
inside `(-90°, 90°)`, where the cosine is positive). -/
theorem claim_c7_aspect_ratio_pos (e : Extent) (h1 : e.lon_min < e.lon_max)
    (h2 : e.lat_min < e.lat_max) (h3 : -90 ≤ e.lat_min) (h4 : e.lat_max ≤ 90) :
    0 < aspect_ratio e := by
  have hpi := Real.pi_pos
  have hps : (0:ℝ) < Real.pi / 180 := by positivity
  set c := (e.lat_min + e.lat_max) / 2 with hc
  have hc1 : -90 < c := by rw [hc]; linarith
  have hc2 : c < 90 := by rw [hc]; linarith
  have hcos : 0 < Real.cos (radians c) := by
    apply Real.cos_pos_of_mem_Ioo
    unfold radians
    constructor
    · calc -(Real.pi / 2) = -90 * (Real.pi / 180) := by ring
        _ < c * (Real.pi / 180) := mul_lt_mul_of_pos_right hc1 hps
    · calc c * (Real.pi / 180) < 90 * (Real.pi / 180) :=
          mul_lt_mul_of_pos_right hc2 hps
        _ = Real.pi / 2 := by ring
  unfold aspect_ratio
  rw [← hc]
  exact div_pos (mul_pos (by linarith) hcos) (by linarith)

/-- Counterexample to claim C7 as stated: the extent
`lon ∈ (0, 1)`, `lat ∈ (100, 120)` satisfies every stated condition (all
coordinates finite, `lon_min < lon_max`, `lat_min < lat_max`), yet its mean
latitude is 110°, whose cosine is negative, so `aspect_ratio < 0`. -/
theorem claim_c7_counterexample :
    (0:ℝ) < 1 ∧ (100:ℝ) < 120 ∧
    aspect_ratio ⟨0, 100, 1, 120⟩ < 0 := by
  have hpi := Real.pi_pos
  have hps : (0:ℝ) < Real.pi / 180 := by positivity
  refine ⟨by norm_num, by norm_num, ?_⟩
  unfold aspect_ratio radians
  have hcos : Real.cos (((100:ℝ) + 120) / 2 * (Real.pi / 180)) < 0 := by
    apply Real.cos_neg_of_pi_div_two_lt_of_lt
    · calc Real.pi / 2 = 90 * (Real.pi / 180) := by ring
        _ < ((100:ℝ) + 120) / 2 * (Real.pi / 180) :=
          mul_lt_mul_of_pos_right (by norm_num) hps
    · calc ((100:ℝ) + 120) / 2 * (Real.pi / 180) = 110 * (Real.pi / 180) := by ring
        _ < 270 * (Real.pi / 180) := mul_lt_mul_of_pos_right (by norm_num) hps
        _ = Real.pi + Real.pi / 2 := by ring
  show ((1:ℝ) - 0) * Real.cos (((100:ℝ) + 120) / 2 * (Real.pi / 180)) / (120 - 100) < 0
  apply div_neg_of_neg_of_pos
  · rw [sub_zero, one_mul]
    exact hcos
  · norm_num

/-- Witness for claim C7's amended theorem on the extent
`lon ∈ (0, 1)`, `lat ∈ (0, 1)`. -/
theorem claim_c7_witness :
    (0:ℝ) < 1 ∧ (-90:ℝ) ≤ 0 ∧ (1:ℝ) ≤ 90 ∧
    0 < aspect_ratio ⟨0, 0, 1, 1⟩ :=
  ⟨by norm_num, by norm_num, by norm_num,
    claim_c7_aspect_ratio_pos ⟨0, 0, 1, 1⟩ (by norm_num) (by norm_num)
      (by norm_num) (by norm_num)⟩

/-- Claim C8: two invocations on identical `Extent`, grid and parameters
produce identical output.  The embedded pipeline is a pure function of its
explicit inputs: the `Ambient` state (random seed, clock) an invocation
could consult never influences the result, because the source's core never
reads it. -/
theorem claim_c8_deterministic (a1 a2 : Ambient) (ext : Extent)
    (grid : List (List ℚ)) (V : ℚ) (uc : Bool) (np npts : ℕ) :
    render_invocation a1 ext grid V uc np npts =
      render_invocation a2 ext grid V uc np npts := rfl

theorem getD_replicate_of_lt {α : Type} (n : ℕ) (x : α) (i : ℕ) (h : i < n)
    (d : α) : (List.replicate n x).getD i d = x := by
  rw [List.getD_eq_getElem _ _ (by simpa using h), List.getElem_replicate]

theorem renderScene_eq (grid : List (List ℚ)) (V : ℚ) (uc : Bool)
    (np npts : ℕ) (profiles : List (List ℚ)) (gmin gmax : ℚ)
    (hs : sampleRowsOpt grid np npts = some profiles)
    (hg : globalRange profiles = some (gmin, gmax)) :
    renderScene grid V uc np npts = Except.ok (layerOps profiles gmin gmax V uc) := by
  unfold renderScene
  rw [hs]
  show (match globalRange profiles with
    | none => Except.error Err.valueError
    | some (gmin, gmax) => Except.ok (layerOps profiles gmin gmax V uc)) =
    Except.ok (layerOps profiles gmin gmax V uc)
  rw [hg]

theorem flatten_replicate_q (n m : ℕ) (x : ℚ) :
    (List.replicate n (List.replicate m x)).flatten = List.replicate (n * m) x := by
  induction n with
  | zero => simp
  | succ k ih =>
    rw [List.replicate_succ, List.flatten_cons, ih,
      show (k + 1) * m = m + k * m from by ring, List.replicate_add]

theorem foldl_min_replicate (n : ℕ) (x : ℚ) :
    List.foldl min x (List.replicate n x) = x := by
  induction n with
  | zero => rfl
  | succ k ih => rw [List.replicate_succ, List.foldl_cons, min_self, ih]

theorem foldl_max_replicate (n : ℕ) (x : ℚ) :
    List.foldl max x (List.replicate n x) = x := by
  induction n with
  | zero => rfl
  | succ k ih => rw [List.replicate_succ, List.foldl_cons, max_self, ih]

/-- Claim C9: on the constant 100×100 grid of elevation 500 m with
`vertical_exaggeration = 1`, the pipeline completes without error — the `ε`
guard keeps the degenerate normalization denominator nonzero — and every
draw height of every profile is the same constant `0`, with every segment
colored the constant dark blue. -/
theorem claim_c9_constant_grid_flat :
    renderScene constGrid100 1 true 100 100 =
      Except.ok ((List.range 100).reverse.map (fun i : ℕ =>
        { idx := i
          y_offset := (i : ℚ) * vertical_offset
          heights := List.replicate 100 0
          colors := some (List.replicate 99 (0, 0, 139))
          fill_zorder := (100 : ℚ) - (i : ℚ)
          line_zorder := (100 : ℚ) - (i : ℚ) + 1/10 })) ∧
    ((500:ℚ) - 500) * 1 + eps ≠ 0 := by
  have hmax500 : max (500:ℚ) 0 = 500 := max_eq_left (by norm_num)
  have hlen : constGrid100.length = 100 := by simp [constGrid100]
  constructor
  · have hs : sampleRowsOpt constGrid100 100 100 = some constGrid100 := by
      have h := sampleRowsOpt_self constGrid100 100 (by rw [hlen]; norm_num)
        (by norm_num)
        (fun row hr => by
          have : row = List.replicate 100 (500:ℚ) :=
            List.eq_of_mem_replicate hr
          rw [this, List.length_replicate])
      rw [hlen] at h
      rw [h]
      unfold constGrid100
      rw [List.reverse_replicate]
    have hg : globalRange constGrid100 = some (500, 500) := by
      unfold globalRange constGrid100
      rw [flatten_replicate_q, List.map_replicate, hmax500,
        show (100 * 100 : ℕ) = 9999 + 1 from by norm_num, List.replicate_succ]
      show some (List.foldl min 500 (List.replicate 9999 500),
        List.foldl max 500 (List.replicate 9999 500)) = some (500, 500)
      rw [foldl_min_replicate, foldl_max_replicate]
    rw [renderScene_eq constGrid100 1 true 100 100 constGrid100 500 500 hs hg]
    congr 1
    unfold layerOps
    rw [hlen]
    apply List.map_congr_left
    intro i hi
    have hi100 : i < 100 := List.mem_range.mp (List.mem_reverse.mp hi)
    have hscale : scaleHeight 500 500 1 500 = 0 := by
      norm_num [scaleHeight, eps, amplitude_scale, vertical_offset]
    unfold layerOp
    simp only [constGrid100, List.length_replicate,
      getD_replicate_of_lt 100 (List.replicate 100 (500:ℚ)) i hi100 ([] : List ℚ),
      List.map_replicate, hmax500, List.dropLast_replicate, hscale,
      color_at_min 500 500 (le_refl 500)]
    simp
  · norm_num [eps]

/-- Claim C10: `elevation_to_color` is a total function and, for every input
value and every `min ≤ max` (values outside `[min, max]` and the degenerate
`max = min` included), each of the three returned channels lies in
`[0, 255]`: the final `np.clip` of every channel guarantees it. -/
theorem claim_c10_channels_in_range (e mn mx : ℚ) (h : mn ≤ mx) :
    0 ≤ (elevation_to_color e mn mx).1 ∧ (elevation_to_color e mn mx).1 ≤ 255 ∧
    0 ≤ (elevation_to_color e mn mx).2.1 ∧ (elevation_to_color e mn mx).2.1 ≤ 255 ∧
    0 ≤ (elevation_to_color e mn mx).2.2 ∧ (elevation_to_color e mn mx).2.2 ≤ 255 :=
  ⟨npClipZ_nonneg _, npClipZ_le _, npClipZ_nonneg _, npClipZ_le _,
    npClipZ_nonneg _, npClipZ_le _⟩

/-- Witness for claim C10 at an out-of-range input value `9999` with
`min = 0`, `max = 100`. -/
theorem claim_c10_witness :
    (0:ℚ) ≤ 100 ∧
    (0 ≤ (elevation_to_color 9999 0 100).1 ∧ (elevation_to_color 9999 0 100).1 ≤ 255 ∧
     0 ≤ (elevation_to_color 9999 0 100).2.1 ∧ (elevation_to_color 9999 0 100).2.1 ≤ 255 ∧
     0 ≤ (elevation_to_color 9999 0 100).2.2 ∧ (elevation_to_color 9999 0 100).2.2 ≤ 255) :=
  ⟨by norm_num, claim_c10_channels_in_range 9999 0 100 (by norm_num)⟩

end ElevationGen
